import Mathlib

/-!
Verification of the MeetScribe chunk-ingestion and finalization pipeline.

This file shallowly embeds the core of the repository:
  - src/backend/app/models.py      (Meeting, MeetingChunk rows)
  - src/backend/app/main.py        (upload_chunk, get_meeting, _build_live_transcript)
  - src/backend/app/worker.py      (transcribe_webm_chunk_in_worker,
                                    summarise_transcript_in_worker,
                                    rebuild_full_transcript,
                                    finalize_meeting_processing,
                                    process_transcription_and_summary,
                                    cleanup_stuck_meetings, generate_summary_only)

External collaborators (speech-to-text, summarization, title generation) are
modelled as fallible functions bundled in a `Services` record; the catch-all
exception handling around their call sites is translated exactly as written.
The relational rows of one session become a `Meeting` value plus a list of
`MeetingChunk` values; SQL queries become ordered list traversals.  Timestamps
are seconds as natural numbers.
-/

set_option linter.unusedVariables false

namespace MeetScribe

/-- One row of the meeting table (src/backend/app/models.py, class Meeting).
Only the columns the pipeline reads or writes are carried; timestamps are in
seconds. -/
structure Meeting where
  title : String
  last_activity : Nat
  expected_chunks : Option Nat
  received_chunks : Nat
  final_received : Bool
  transcript_text : Option String
  summary_markdown : Option String
  done : Bool
  summary_task_queued : Bool
  word_count : Option Nat
  duration_seconds : Option Nat
  summary_length : String
  summary_language_mode : String
  summary_custom_language : Option String
  context : Option String
deriving DecidableEq

/-- One row of the meetingchunk table (src/backend/app/models.py, class
MeetingChunk), restricted to one session so meeting_id is implicit. -/
structure MeetingChunk where
  chunk_index : Nat
  path : String
  text : Option String
deriving DecidableEq

/-- The external AI collaborators: each call either returns a string or raises
(an `Except.error`).  `transcribe` is keyed by the chunk path it is given;
`summarize` and `titleGen` by the transcript/summary fed into the prompt. -/
structure Services where
  transcribe : String → Except String String
  summarize : String → Except String String
  titleGen : String → Except String String

/-- Python str.strip(): drop leading and trailing whitespace.  String
literals are definitionally `String.mk` of their character list, so all the
string manipulations here recurse on that list and stay kernel-computable. -/
def pyStrip (s : String) : String :=
  String.mk (((s.data.dropWhile Char.isWhitespace).reverse.dropWhile
    Char.isWhitespace).reverse)

/-- Accumulator pass behind `pyWords`: cut a character list at whitespace
runs. -/
def wordsAux : List Char → List Char → List (List Char)
  | [], acc => if acc.isEmpty then [] else [acc.reverse]
  | c :: cs, acc =>
    if c.isWhitespace then
      if acc.isEmpty then wordsAux cs [] else acc.reverse :: wordsAux cs []
    else wordsAux cs (c :: acc)

/-- Python str.split() with no argument: the whitespace-run separated words,
never containing an empty piece. -/
def pyWords (s : String) : List String := (wordsAux s.data []).map String.mk

/-- Substring occurrence on character lists. -/
def hasSubstring : List Char → List Char → Bool
  | [], pat => pat.isEmpty
  | l@(_ :: rest), pat => pat.isPrefixOf l || hasSubstring rest pat

/-- Python `pat in s`. -/
def strContains (s pat : String) : Bool := hasSubstring s.data pat.data

/-- Python str.lower(). -/
def pyLower (s : String) : String := String.mk (s.data.map Char.toLower)

/-- Python str.startswith(pre). -/
def pyStartsWith (s pre : String) : Bool := pre.data.isPrefixOf s.data

/-- Python (sep).join(pieces). -/
def joinWith (sep : String) : List String → String
  | [] => ""
  | [s] => s
  | s :: rest => s ++ sep ++ joinWith sep rest

/-- Python s.strip(a single quote character): drop leading and trailing
double-quote characters. -/
def pyStripQuote (s : String) : String :=
  String.mk (((s.data.dropWhile (fun c => c == '"')).reverse.dropWhile
    (fun c => c == '"')).reverse)

/-- worker.py transcribe_webm_chunk_in_worker: both the cloud branch and the
local branch return the stripped text of the service call on the chunk path;
the surrounding catch-all `except Exception` returns the empty string. -/
def transcribe_webm_chunk_in_worker (svc : Services) (chunk_path_str : String) : String :=
  match svc.transcribe chunk_path_str with
  | Except.ok t => pyStrip t
  | Except.error _ => ""

/-- worker.py: sentinel returned by summarise_transcript_in_worker for a
transcript of fewer than 25 words. -/
def tooBriefSentinel : String :=
  "Recording is too brief to generate a meaningful summary."

/-- worker.py: sentinel returned by summarise_transcript_in_worker when the
summarization call raises. -/
def summaryFailedSentinel : String := "Error: Summary generation failed."

/-- worker.py finalize_meeting_processing: sentinel stored when the rebuilt
transcript is the empty string. -/
def emptyTranscriptSentinel : String :=
  "Error: Transcript was empty, summary could not be generated."

/-- worker.py summarise_transcript_in_worker: fewer than 25 words returns the
too-brief sentinel; otherwise the summarization call is made, any exception
becoming the failed-summary sentinel.  Language detection and prompt assembly
only shape the prompt, so they are absorbed into `svc.summarize`. -/
def summarise_transcript_in_worker (svc : Services) (full_transcript : String)
    (summary_length : String) (summary_language_mode : String)
    (summary_custom_language : Option String) (context : Option String) : String :=
  if full_transcript == "" || (pyWords (pyStrip full_transcript)).length < 25 then
    tooBriefSentinel
  else
    match svc.summarize full_transcript with
    | Except.ok out => pyStrip out
    | Except.error _ => summaryFailedSentinel

/-- worker.py generate_title_for_meeting: refuses (returns "") on an empty
summary or one containing "error" or "too short"; otherwise the title call is
made, its result stripped of whitespace and quotes, any exception becoming "". -/
def generate_title_for_meeting (svc : Services) (summary : String)
    (full_transcript : String) : String :=
  if summary == "" || strContains (pyLower summary) "error"
      || strContains (pyLower summary) "too short" then
    ""
  else
    match svc.titleGen summary with
    | Except.ok t => pyStripQuote (pyStrip t)
    | Except.error _ => ""

/-- ORDER BY chunk_index comparison. -/
def chunkLe (a b : MeetingChunk) : Prop := a.chunk_index ≤ b.chunk_index

instance : DecidableRel chunkLe := fun a b => Nat.decLe a.chunk_index b.chunk_index

instance : IsTotal MeetingChunk chunkLe :=
  ⟨fun a b => Nat.le_total a.chunk_index b.chunk_index⟩

instance : IsTrans MeetingChunk chunkLe :=
  ⟨fun a b c h1 h2 => Nat.le_trans h1 h2⟩

/-- Strict version of the index order, used to show sorted row lists with
distinct indices are unique. -/
def chunkLt (a b : MeetingChunk) : Prop := a.chunk_index < b.chunk_index

instance : IsAntisymm MeetingChunk chunkLt :=
  ⟨fun a b h1 h2 => absurd h1 (Nat.lt_asymm h2)⟩

/-- The `ORDER BY chunk_index` of the SQL queries, as a sort of the row list. -/
def sortChunks (l : List MeetingChunk) : List MeetingChunk :=
  List.insertionSort chunkLe l

/-- worker.py rebuild_full_transcript: select the texts of the session's rows
whose text is not null, ordered by chunk_index; the transcript joins the
truthy (non-empty) ones with single spaces and strips the result, while the
returned count is the number of all non-null texts. -/
def rebuild_full_transcript (chunks : List MeetingChunk) : String × Nat :=
  let texts := (sortChunks chunks).filterMap (fun c => c.text)
  (pyStrip (joinWith " " (texts.filter (fun t => t != ""))), texts.length)

/-- worker.py finalize_meeting_processing: rebuild the transcript, store it,
and either summarize (non-empty transcript, with word count and the 30 s per
chunk duration estimate, optionally replacing a placeholder title) or store
the empty-transcript sentinel; in both branches `done` is set. -/
def finalize_meeting_processing (svc : Services) (mtg : Meeting)
    (chunks : List MeetingChunk) : Meeting :=
  let r := rebuild_full_transcript chunks
  let final_transcript := r.1
  let num_chunks := r.2
  let mtg1 := { mtg with transcript_text := some final_transcript }
  if final_transcript != "" then
    let mtg2 := { mtg1 with
      word_count := some (pyWords final_transcript).length,
      duration_seconds := some (num_chunks * 30) }
    let summary_md := summarise_transcript_in_worker svc final_transcript
      mtg2.summary_length mtg2.summary_language_mode
      mtg2.summary_custom_language mtg2.context
    let mtg3 := { mtg2 with summary_markdown := some summary_md }
    let is_default_title := pyStartsWith mtg3.title "Recording "
      || pyStartsWith mtg3.title "Transcription of "
    let mtg4 :=
      if summary_md != "" && !(strContains (pyLower summary_md) "error")
          && is_default_title then
        let new_title := generate_title_for_meeting svc summary_md final_transcript
        if new_title != "" then { mtg3 with title := new_title } else mtg3
      else mtg3
    { mtg4 with done := true }
  else
    { mtg1 with
      word_count := some 0,
      duration_seconds := some 0,
      summary_markdown := some emptyTranscriptSentinel,
      done := true }

/-- main.py upload_chunk: f-string chunk file name, zero-padded to width 3. -/
def pad3 (n : Nat) : String :=
  let s := toString n
  if s.length < 3 then String.mk (List.replicate (3 - s.length) '0') ++ s else s

/-- main.py upload_chunk: the deterministic storage key of a chunk. -/
def chunk_path (mtg_dir : String) (chunk_index : Nat) : String :=
  mtg_dir ++ "/chunk_" ++ pad3 chunk_index ++ ".webm"

/-- main.py upload_chunk: `size_kb < 0.1` with size_kb = bytes / 1024. -/
def tiny (size_bytes : Nat) : Bool := size_bytes * 10 < 1024

/-- The session's chunk row with the given index, if any (queries `.first()`;
indices are unique per session). -/
def findChunk (chunks : List MeetingChunk) (idx : Nat) : Option MeetingChunk :=
  chunks.find? (fun c => c.chunk_index == idx)

/-- main.py upload_chunk: insert a fresh row (text null) or overwrite the
existing row's path and null its text.  The source mutates the single row the
query returns; under per-session index uniqueness updating every matching row
is the same operation. -/
def upsertChunk (chunks : List MeetingChunk) (idx : Nat) (path : String) :
    List MeetingChunk :=
  match findChunk chunks idx with
  | none => chunks ++ [⟨idx, path, none⟩]
  | some _ => chunks.map (fun c =>
      if c.chunk_index == idx then { c with path := path, text := none } else c)

/-- What the ingestion endpoint leaves behind: the updated rows, whether a
transcription task was enqueued, and the `skipped` flag of the response. -/
structure UploadResult where
  mtg : Meeting
  chunks : List MeetingChunk
  task_enqueued : Bool
  skipped : Bool

/-- main.py upload_chunk, after the 404 check and the byte write: tiny chunks
are signalling only (possibly setting final_received/expected_chunks) and are
not recorded, counted, or enqueued; real chunks are upserted with text
cleared, counted, reset a complete session, and may pin expected_chunks
upward; exactly one task is enqueued per real chunk.  (The deletion of
derived MeetingSection rows on resume touches a table outside this model.) -/
def upload_chunk (now : Nat) (mtg_dir : String) (mtg : Meeting)
    (chunks : List MeetingChunk) (chunk_index : Nat) (size_bytes : Nat)
    (is_final : Bool) : UploadResult :=
  let path := chunk_path mtg_dir chunk_index
  if tiny size_bytes then
    let mtg1 :=
      if is_final then
        { mtg with final_received := true,
                   expected_chunks := some (mtg.expected_chunks.getD mtg.received_chunks) }
      else mtg
    ⟨mtg1, chunks, false, true⟩
  else
    let chunks1 := upsertChunk chunks chunk_index path
    let mtg1 := { mtg with received_chunks := mtg.received_chunks + 1,
                           last_activity := now }
    let mtg2 :=
      if mtg1.done then { mtg1 with done := false, summary_markdown := none }
      else mtg1
    let mtg3 :=
      if is_final then
        { mtg2 with final_received := true,
                    expected_chunks :=
                      match mtg2.expected_chunks with
                      | none => some mtg2.received_chunks
                      | some e =>
                        if e < mtg2.received_chunks then some mtg2.received_chunks
                        else some e }
      else mtg2
    ⟨mtg3, chunks1, true, false⟩

/-- COUNT of the session's chunk rows whose text is not null. -/
def transcribedCount (chunks : List MeetingChunk) : Nat :=
  (chunks.filter (fun c => c.text.isSome)).length

/-- Persist a transcription result on the row with the given index. -/
def setChunkText (chunks : List MeetingChunk) (idx : Nat) (t : String) :
    List MeetingChunk :=
  chunks.map (fun c =>
    if c.chunk_index == idx then { c with text := some t } else c)

/-- What one run of the transcription task leaves behind. -/
structure TaskResult where
  mtg : Meeting
  chunks : List MeetingChunk
  finalize_invoked : Bool

/-- worker.py process_transcription_and_summary:
`expected_chunks if expected_chunks is not None else received_chunks`. -/
def effective_expected (mtg : Meeting) : Nat :=
  match mtg.expected_chunks with
  | some e => e
  | none => mtg.received_chunks

/-- worker.py process_transcription_and_summary: transcribe, persist the text
on the chunk row (a missing row aborts), recount the non-null texts, and run
finalization when the session is not done, is finalized, and the count has
reached a positive effective expectation. -/
def process_transcription_and_summary (svc : Services) (mtg : Meeting)
    (chunks : List MeetingChunk) (chunk_index : Nat) (chunk_path_str : String) :
    TaskResult :=
  let chunk_text := transcribe_webm_chunk_in_worker svc chunk_path_str
  match findChunk chunks chunk_index with
  | none => ⟨mtg, chunks, false⟩
  | some _ =>
    let chunks1 := setChunkText chunks chunk_index chunk_text
    let transcribed_count := transcribedCount chunks1
    let eff := effective_expected mtg
    if !mtg.done && mtg.final_received && decide (0 < eff)
        && decide (eff ≤ transcribed_count) then
      ⟨finalize_meeting_processing svc mtg chunks1, chunks1, true⟩
    else
      ⟨mtg, chunks1, false⟩

/-- main.py: the status endpoint's inactivity window, in seconds. -/
def INACTIVITY_TIMEOUT_SECONDS : Nat := 120

/-- main.py _build_live_transcript: walk indices 0 .. max_chunk_count - 1
(expected_chunks when finalized with a set expectation, else received_chunks),
emitting each present row's non-null text and a placeholder otherwise, joined
with single spaces and stripped. -/
def build_live_transcript (mtg : Meeting) (chunks : List MeetingChunk) : String :=
  let max_chunk_count :=
    if mtg.final_received && mtg.expected_chunks.isSome then
      mtg.expected_chunks.getD mtg.received_chunks
    else mtg.received_chunks
  let display_texts := (List.range max_chunk_count).map (fun i =>
    match findChunk chunks i with
    | some c => match c.text with
      | some t => t
      | none => "[...]"
    | none => "[...]")
  pyStrip (joinWith " " display_texts)

/-- Python truthiness of an optional string: None and "" are falsy. -/
def pyTruthyStr : Option String → Bool
  | none => false
  | some s => s != ""

/-- What one status poll leaves behind: the (possibly auto-finalized, possibly
summary-enqueued) meeting, whether a summary-only task was enqueued now, the
transcript field of the response, and the derived count. -/
structure StatusResult where
  mtg : Meeting
  summary_enqueued_now : Bool
  transcript_shown : Option String
  transcribed_chunks : Nat

/-- main.py get_meeting, after the 404 check: auto-finalize on inactivity
(only when expected_chunks is still null), recount, lazily enqueue a
summary-only task under the guard, and answer with the stored transcript when
done, else the live one. -/
def get_meeting (now : Nat) (mtg : Meeting) (chunks : List MeetingChunk) :
    StatusResult :=
  let mtg1 :=
    if !mtg.final_received && mtg.expected_chunks.isNone
        && decide (INACTIVITY_TIMEOUT_SECONDS < now - mtg.last_activity) then
      { mtg with final_received := true,
                 expected_chunks := some mtg.received_chunks }
    else mtg
  let transcribed_count := transcribedCount chunks
  let trigger :=
    !mtg1.done && !mtg1.summary_task_queued && !(pyTruthyStr mtg1.summary_markdown)
      && mtg1.final_received
      && (match mtg1.expected_chunks with
          | some e => decide (0 < e) && decide (e ≤ transcribed_count)
          | none => false)
  let mtg2 := if trigger then { mtg1 with summary_task_queued := true } else mtg1
  let live_tx := build_live_transcript mtg2 chunks
  ⟨mtg2, trigger,
   if mtg2.done then mtg2.transcript_text else some live_tx,
   transcribed_count⟩

/-- worker.py cleanup_stuck_meetings: the 5-minute window of phase 1, in
seconds. -/
def JANITOR_INACTIVITY_SECONDS : Nat := 300

/-- worker.py cleanup_stuck_meetings: the 15-minute stuck window of phase 2,
in seconds. -/
def STUCK_THRESHOLD_SECONDS : Nat := 900

/-- What one janitor sweep leaves behind for one meeting. -/
structure JanitorResult where
  mtg : Meeting
  requeued : List Nat
  finalize_invoked : Bool

/-- worker.py cleanup_stuck_meetings, step 1 for one meeting: finalize a
not-done, not-finalized meeting inactive past the short window, pinning
expected_chunks to received_chunks when it is still null. -/
def janitor_phase1 (now : Nat) (mtg : Meeting) : Meeting :=
  if !mtg.done && !mtg.final_received
      && decide (mtg.last_activity + JANITOR_INACTIVITY_SECONDS < now) then
    { mtg with final_received := true,
               expected_chunks := some (mtg.expected_chunks.getD mtg.received_chunks) }
  else mtg

/-- worker.py cleanup_stuck_meetings, restricted to one meeting: phase 1
finalizes a not-done, not-finalized meeting inactive past the short window;
phase 2 takes a not-done, finalized meeting inactive past the stuck window
and either re-runs finalization (no null-text rows) or touches last_activity
and re-enqueues a task per null-text row whose file still exists. -/
def cleanup_stuck_meeting (svc : Services) (now : Nat)
    (pathExists : String → Bool) (mtg : Meeting) (chunks : List MeetingChunk) :
    JanitorResult :=
  let mtg1 := janitor_phase1 now mtg
  if !mtg1.done && mtg1.final_received
      && decide (mtg1.last_activity + STUCK_THRESHOLD_SECONDS < now) then
    let unprocessed := chunks.filter (fun c => c.text.isNone)
    if unprocessed.isEmpty then
      ⟨finalize_meeting_processing svc mtg1 chunks, [], true⟩
    else
      ⟨{ mtg1 with last_activity := now },
       (unprocessed.filter (fun c => pathExists c.path)).map
         (fun c => c.chunk_index),
       false⟩
  else
    ⟨mtg1, [], false⟩

/-- worker.py generate_summary_only: abort when already done, else run the
finalization routine. -/
def generate_summary_only (svc : Services) (mtg : Meeting)
    (chunks : List MeetingChunk) : Meeting :=
  if mtg.done then mtg else finalize_meeting_processing svc mtg chunks

/-! ### Definitions taken from the claims' words, for comparison with the code -/

/-- From claim C1's words: `effective_expected` equals `expected_count` when
the session is finalized and `received_count` otherwise. -/
def claim_effective_expected (mtg : Meeting) : Nat :=
  if mtg.final_received then mtg.expected_chunks.getD 0 else mtg.received_chunks

/-- From claim C3's words: the texts of all non-null, non-header chunks of the
session, ordered by chunk index ascending and joined with single spaces. -/
def c3_claim_transcript (chunks : List MeetingChunk) : String :=
  joinWith " "
    (((sortChunks chunks).filter (fun c => c.chunk_index != 0)).filterMap
      (fun c => c.text))

/-- Amended C3: the non-null, non-empty chunk texts ordered by index ascending
(no index excluded), joined with single spaces and stripped. -/
def c3_amended_transcript (chunks : List MeetingChunk) : String :=
  pyStrip (joinWith " "
    (((sortChunks chunks).filterMap (fun c => c.text)).filter
      (fun t => t != "")))

/-- Amended C4: for each index from 0 below the bar (expected_chunks when the
session is finalized with a set expectation, else received_chunks), the
chunk's text when a row with that index exists with non-null text and the
placeholder "[...]" otherwise, joined with single spaces and stripped. -/
def c4_amended_live (mtg : Meeting) (chunks : List MeetingChunk) : String :=
  let bar :=
    if mtg.final_received && mtg.expected_chunks.isSome then
      mtg.expected_chunks.getD mtg.received_chunks
    else mtg.received_chunks
  pyStrip (joinWith " " ((List.range bar).map (fun i =>
    match findChunk chunks i with
    | some c => c.text.getD "[...]"
    | none => "[...]")))

/-- The session invariants of amended claim C8: a complete session has a
non-null summary and a non-null transcript, and a finalized session has
expected_chunks set. -/
def session_invariant (mtg : Meeting) : Prop :=
  (mtg.done = true → mtg.summary_markdown ≠ none ∧ mtg.transcript_text ≠ none) ∧
  (mtg.final_received = true → mtg.expected_chunks ≠ none)

instance (mtg : Meeting) : Decidable (session_invariant mtg) := by
  unfold session_invariant; infer_instance

/-- The session invariants exactly as claim C8 states them: when complete, the
summary is non-null and the transcript holds the final assembled value (the
re-assembly of the current chunk rows); when finalized, expected_chunks is
set. -/
def c8_claim_invariant (mtg : Meeting) (chunks : List MeetingChunk) : Prop :=
  (mtg.done = true → mtg.summary_markdown ≠ none ∧
    mtg.transcript_text = some (rebuild_full_transcript chunks).1) ∧
  (mtg.final_received = true → mtg.expected_chunks ≠ none)

instance (mtg : Meeting) (chunks : List MeetingChunk) :
    Decidable (c8_claim_invariant mtg chunks) := by
  unfold c8_claim_invariant; infer_instance

/-! ### Concrete sample states used by witnesses and counterexamples -/

/-- A freshly created session with the default configuration. -/
def sampleMeeting : Meeting :=
  { title := "Recording 1", last_activity := 0, expected_chunks := none,
    received_chunks := 0, final_received := false, transcript_text := none,
    summary_markdown := none, done := false, summary_task_queued := false,
    word_count := none, duration_seconds := none, summary_length := "auto",
    summary_language_mode := "auto", summary_custom_language := none,
    context := none }

/-- External collaborators that always succeed. -/
def okServices : Services :=
  ⟨fun _ => Except.ok "hello", fun _ => Except.ok "A summary.",
   fun _ => Except.ok "A Title"⟩

/-- External collaborators that always raise. -/
def failingServices : Services :=
  ⟨fun _ => Except.error "down", fun _ => Except.error "down",
   fun _ => Except.error "down"⟩

/-- A transcript of 25 identical words, long enough to summarize. -/
def longText : String := joinWith " " (List.replicate 25 "word")

/-- A session that finished recording (one chunk expected and uploaded) whose
single chunk is still pending. -/
def finalizedPendingMeeting : Meeting :=
  { sampleMeeting with
      final_received := true, expected_chunks := some 1, received_chunks := 1 }

/-- A completed session that had lazily enqueued its summary task. -/
def doneQueuedMeeting : Meeting :=
  { sampleMeeting with
      done := true, summary_task_queued := true, summary_markdown := some "S",
      final_received := true, expected_chunks := some 1, received_chunks := 1,
      transcript_text := some "a" }

/-- A completed session summarized from its first chunk while a second,
uncounted chunk is still pending. -/
def doneStaleMeeting : Meeting :=
  { sampleMeeting with
      done := true, final_received := true, expected_chunks := some 1,
      received_chunks := 2, transcript_text := some "a",
      summary_markdown := some "S" }

/-- An abandoned session: three chunks received, no final marker, last
activity at time 0. -/
def inactiveMeeting : Meeting := { sampleMeeting with received_chunks := 3 }

/-- A session created with a client-supplied expected_chunks: create_meeting
passes MeetingCreate.expected_chunks straight into the new row while
final_received is still false. -/
def preExpectedMeeting : Meeting :=
  { sampleMeeting with expected_chunks := some 5 }

/-- An in-progress session that has received four real chunks. -/
def liveMeeting : Meeting :=
  { sampleMeeting with received_chunks := 4, last_activity := 1000 }

/-- Chunk rows 1, 2, 4 transcribed and 3 pending. -/
def liveChunks : List MeetingChunk :=
  [⟨1, "p1", some "a"⟩, ⟨2, "p2", some "b"⟩, ⟨3, "p3", none⟩,
   ⟨4, "p4", some "d"⟩]

/-! ### Helper lemmas about the chunk-row operations -/

theorem findChunk_setChunkText_self (l : List MeetingChunk) (i : Nat) (t : String) :
    findChunk (setChunkText l i t) i =
      (findChunk l i).map (fun c => { c with text := some t }) := by
  unfold findChunk setChunkText
  induction l with
  | nil => rfl
  | cons c cs ih =>
    by_cases h : c.chunk_index = i
    · simp [List.find?_cons, h]
    · have hb : (c.chunk_index == i) = false := by simp [h]
      simp only [List.map_cons, List.find?_cons, hb, Bool.false_eq_true,
        if_false, cond_false]
      exact ih

theorem setChunkText_setChunkText (l : List MeetingChunk) (i : Nat) (t : String) :
    setChunkText (setChunkText l i t) i t = setChunkText l i t := by
  unfold setChunkText
  induction l with
  | nil => rfl
  | cons c cs ih =>
    rw [List.map_cons, List.map_cons, ih]
    by_cases h : c.chunk_index = i <;> simp [h]

theorem mem_setChunkText_eq_idx (l : List MeetingChunk) (i : Nat) (t : String)
    (d : MeetingChunk) (hd : d ∈ setChunkText l i t) (hidx : d.chunk_index = i) :
    d.text = some t := by
  unfold setChunkText at hd
  obtain ⟨c, hc, rfl⟩ := List.mem_map.mp hd
  by_cases h : c.chunk_index = i
  · simp [h]
  · rw [if_neg (by simp [h])] at hidx
    exact absurd hidx h

theorem findChunk_upsertChunk (l : List MeetingChunk) (i : Nat) (p : String)
    (c : MeetingChunk) (hfound : findChunk l i = some c) :
    findChunk (upsertChunk l i p) i = some ⟨i, p, none⟩ := by
  unfold upsertChunk
  rw [hfound]
  induction l with
  | nil => simp [findChunk] at hfound
  | cons a as ih =>
    unfold findChunk at *
    by_cases h : a.chunk_index = i
    · simp [List.find?_cons, h]
    · have hb : (a.chunk_index == i) = false := by simp [h]
      simp only [List.find?_cons, hb, cond_false] at hfound
      simp only [List.map_cons, List.find?_cons, hb, if_neg h]
      simpa [hb] using ih hfound

/-! ### Helper lemmas about the finalization routine -/

theorem finalize_fields (svc : Services) (mtg : Meeting)
    (chunks : List MeetingChunk) :
    (finalize_meeting_processing svc mtg chunks).done = true ∧
    (finalize_meeting_processing svc mtg chunks).final_received =
      mtg.final_received ∧
    (finalize_meeting_processing svc mtg chunks).expected_chunks =
      mtg.expected_chunks ∧
    (finalize_meeting_processing svc mtg chunks).transcript_text =
      some (rebuild_full_transcript chunks).1 ∧
    (finalize_meeting_processing svc mtg chunks).summary_markdown ≠ none := by
  simp only [finalize_meeting_processing]
  split
  · split
    · split <;> simp
    · simp
  · simp

theorem finalize_summary_of_empty (svc : Services) (mtg : Meeting)
    (chunks : List MeetingChunk) (h : (rebuild_full_transcript chunks).1 = "") :
    (finalize_meeting_processing svc mtg chunks).summary_markdown =
      some emptyTranscriptSentinel := by
  simp only [finalize_meeting_processing]
  split
  · next hne => simp [h] at hne
  · rfl

theorem finalize_summary_of_nonempty (svc : Services) (mtg : Meeting)
    (chunks : List MeetingChunk) (h : (rebuild_full_transcript chunks).1 ≠ "") :
    (finalize_meeting_processing svc mtg chunks).summary_markdown =
      some (summarise_transcript_in_worker svc (rebuild_full_transcript chunks).1
        mtg.summary_length mtg.summary_language_mode mtg.summary_custom_language
        mtg.context) := by
  simp only [finalize_meeting_processing]
  split
  · split
    · split <;> rfl
    · rfl
  · next hemp =>
    simp only [bne_iff_ne, ne_eq, not_not] at hemp
    exact absurd hemp h

theorem summarise_of_brief (svc : Services) (t ln lm : String)
    (cl ctx : Option String) (h : t = "" ∨ (pyWords (pyStrip t)).length < 25) :
    summarise_transcript_in_worker svc t ln lm cl ctx = tooBriefSentinel := by
  unfold summarise_transcript_in_worker
  have : (t == "" || decide ((pyWords (pyStrip t)).length < 25)) = true := by
    rcases h with h | h <;> simp [h]
  simp [this]

theorem summarise_of_error (svc : Services) (t ln lm : String)
    (cl ctx : Option String) (e : String) (h1 : t ≠ "")
    (h2 : ¬(pyWords (pyStrip t)).length < 25)
    (hsvc : svc.summarize t = Except.error e) :
    summarise_transcript_in_worker svc t ln lm cl ctx = summaryFailedSentinel := by
  unfold summarise_transcript_in_worker
  have : (t == "" || decide ((pyWords (pyStrip t)).length < 25)) = false := by
    simp [h1, h2]
  simp [this, hsvc]

/-! ### Helper lemmas about sorting chunk rows -/

theorem sorted_chunkLt_of_nodup (l : List MeetingChunk)
    (hs : List.Sorted chunkLe l)
    (hnd : (l.map MeetingChunk.chunk_index).Nodup) :
    List.Sorted chunkLt l := by
  have hne : l.Pairwise (fun a b => a.chunk_index ≠ b.chunk_index) :=
    List.pairwise_map.mp hnd
  exact (hs.and hne).imp (fun h => Nat.lt_of_le_of_ne h.1 h.2)

theorem sortChunks_perm (l : List MeetingChunk) : (sortChunks l).Perm l :=
  List.perm_insertionSort chunkLe l

theorem sortChunks_eq_of_perm (l1 l2 : List MeetingChunk) (hperm : l1.Perm l2)
    (hnd : (l1.map MeetingChunk.chunk_index).Nodup) :
    sortChunks l1 = sortChunks l2 := by
  have hp : (sortChunks l1).Perm (sortChunks l2) :=
    ((sortChunks_perm l1).trans hperm).trans (sortChunks_perm l2).symm
  have hnd1 : ((sortChunks l1).map MeetingChunk.chunk_index).Nodup :=
    (((sortChunks_perm l1).map MeetingChunk.chunk_index).nodup_iff).mpr hnd
  have hnd2 : ((sortChunks l2).map MeetingChunk.chunk_index).Nodup := by
    refine (((sortChunks_perm l2).map MeetingChunk.chunk_index).trans
      ?_).nodup_iff.mpr hnd
    exact hperm.symm.map MeetingChunk.chunk_index
  exact List.eq_of_perm_of_sorted hp
    (sorted_chunkLt_of_nodup _ (List.sorted_insertionSort chunkLe l1) hnd1)
    (sorted_chunkLt_of_nodup _ (List.sorted_insertionSort chunkLe l2) hnd2)

/-! ### Invariant preservation helpers -/

theorem finalize_preserves_invariant (svc : Services) (mtg : Meeting)
    (chunks : List MeetingChunk) (h : session_invariant mtg) :
    session_invariant (finalize_meeting_processing svc mtg chunks) := by
  obtain ⟨hdone, hfin, hexp, htx, hsum⟩ := finalize_fields svc mtg chunks
  constructor
  · intro _
    refine ⟨hsum, ?_⟩
    rw [htx]
    exact Option.some_ne_none _
  · intro hf
    rw [hexp]
    rw [hfin] at hf
    exact h.2 hf

theorem expected_update_ne_none (o : Option Nat) (r : Nat) :
    (match o with
     | none => some r
     | some e => if e < r then some r else some e) ≠ none := by
  cases o with
  | none => simp
  | some e => by_cases hlt : e < r <;> simp [hlt]

theorem upload_preserves_invariant (now : Nat) (dir : String) (mtg : Meeting)
    (chunks : List MeetingChunk) (idx size : Nat) (fin : Bool)
    (h : session_invariant mtg) :
    session_invariant (upload_chunk now dir mtg chunks idx size fin).mtg := by
  obtain ⟨h1, h2⟩ := h
  simp only [upload_chunk]
  split
  · -- tiny chunk: only final_received and expected_chunks can change
    split
    · exact ⟨fun hd => h1 hd, fun _ => by simp⟩
    · exact ⟨h1, h2⟩
  · -- real chunk: the session is never done afterwards
    constructor
    · intro hd
      exfalso
      revert hd
      split <;> split <;> simp_all
    · intro hf
      revert hf
      split
      · intro _
        simp only [apply_ite Meeting.expected_chunks,
          apply_ite Meeting.received_chunks, ite_self]
        cases mtg.expected_chunks with
        | none => simp
        | some e => by_cases hlt : e < mtg.received_chunks + 1 <;> simp [hlt]
      · split
        · exact fun hf => h2 hf
        · exact fun hf => h2 hf

theorem process_preserves_invariant (svc : Services) (mtg : Meeting)
    (chunks : List MeetingChunk) (idx : Nat) (p : String)
    (h : session_invariant mtg) :
    session_invariant (process_transcription_and_summary svc mtg chunks idx p).mtg := by
  simp only [process_transcription_and_summary]
  split
  · exact h
  · split
    · exact finalize_preserves_invariant svc mtg _ h
    · exact h

theorem get_meeting_mtg_fields (now : Nat) (mtg : Meeting)
    (chunks : List MeetingChunk) :
    (get_meeting now mtg chunks).mtg.done = mtg.done ∧
    (get_meeting now mtg chunks).mtg.summary_markdown = mtg.summary_markdown ∧
    (get_meeting now mtg chunks).mtg.transcript_text = mtg.transcript_text ∧
    (((get_meeting now mtg chunks).mtg.final_received = mtg.final_received ∧
      (get_meeting now mtg chunks).mtg.expected_chunks = mtg.expected_chunks) ∨
     ((get_meeting now mtg chunks).mtg.final_received = true ∧
      (get_meeting now mtg chunks).mtg.expected_chunks =
        some mtg.received_chunks)) := by
  simp only [get_meeting]
  split <;> split <;> simp

theorem get_meeting_preserves_invariant (now : Nat) (mtg : Meeting)
    (chunks : List MeetingChunk) (h : session_invariant mtg) :
    session_invariant (get_meeting now mtg chunks).mtg := by
  obtain ⟨hd, hs, ht, hfe⟩ := get_meeting_mtg_fields now mtg chunks
  constructor
  · intro hdone
    rw [hd] at hdone
    obtain ⟨ha, hb⟩ := h.1 hdone
    exact ⟨by rw [hs]; exact ha, by rw [ht]; exact hb⟩
  · intro hf
    rcases hfe with ⟨hf2, he⟩ | ⟨hf3, he⟩
    · rw [he]
      rw [hf2] at hf
      exact h.2 hf
    · rw [he]
      exact Option.some_ne_none _

theorem phase1_preserves_invariant (now : Nat) (mtg : Meeting)
    (h : session_invariant mtg) :
    session_invariant (janitor_phase1 now mtg) := by
  simp only [janitor_phase1]
  split
  · exact ⟨fun hd => h.1 hd, fun _ => by simp⟩
  · exact h

theorem cleanup_preserves_invariant (svc : Services) (now : Nat)
    (pathExists : String → Bool) (mtg : Meeting) (chunks : List MeetingChunk)
    (h : session_invariant mtg) :
    session_invariant (cleanup_stuck_meeting svc now pathExists mtg chunks).mtg := by
  have h1 := phase1_preserves_invariant now mtg h
  simp only [cleanup_stuck_meeting]
  split
  · split
    · exact finalize_preserves_invariant svc _ chunks h1
    · exact ⟨fun hd => h1.1 hd, fun hf => h1.2 hf⟩
  · exact h1

/-! ### The claims -/

/-- C1: after the transcription task persists a chunk's text (the chunk row
exists), it invokes the finalization routine if and only if the session is not
complete, is finalized, the effective expectation is positive, and the recount
of non-null chunk texts has reached it, where the effective expectation is
expected_chunks for a finalized session and received_chunks otherwise.  The
hypothesis is the session invariant that a finalized session has
expected_chunks set. -/
theorem c1_finalization_trigger (svc : Services) (mtg : Meeting)
    (chunks : List MeetingChunk) (idx : Nat) (p : String) (c : MeetingChunk)
    (hfound : findChunk chunks idx = some c)
    (hinv : mtg.final_received = true → mtg.expected_chunks ≠ none) :
    (process_transcription_and_summary svc mtg chunks idx p).finalize_invoked
        = true ↔
      (mtg.done = false ∧ mtg.final_received = true ∧
        0 < claim_effective_expected mtg ∧
        claim_effective_expected mtg ≤
          transcribedCount (setChunkText chunks idx
            (transcribe_webm_chunk_in_worker svc p))) := by
  have heff : mtg.final_received = true →
      claim_effective_expected mtg = effective_expected mtg := by
    intro hf
    unfold claim_effective_expected effective_expected
    cases hexp : mtg.expected_chunks with
    | none => exact absurd hexp (hinv hf)
    | some e => simp [hf]
  simp only [process_transcription_and_summary, hfound]
  by_cases hcond : (!mtg.done && mtg.final_received
      && decide (0 < effective_expected mtg)
      && decide (effective_expected mtg ≤ transcribedCount (setChunkText chunks
        idx (transcribe_webm_chunk_in_worker svc p)))) = true
  · rw [if_pos hcond]
    simp only [Bool.and_eq_true, Bool.not_eq_true', decide_eq_true_eq] at hcond
    obtain ⟨⟨⟨h1, h2⟩, h3⟩, h4⟩ := hcond
    exact ⟨fun _ => ⟨h1, h2, by rw [heff h2]; exact h3, by rw [heff h2]; exact h4⟩,
      fun _ => rfl⟩
  · rw [if_neg hcond]
    simp only [Bool.and_eq_true, Bool.not_eq_true', decide_eq_true_eq] at hcond
    constructor
    · intro hfalse
      exact absurd hfalse (by simp)
    · rintro ⟨h1, h2, h3, h4⟩
      exact absurd ⟨⟨⟨h1, h2⟩, by rw [← heff h2]; exact h3⟩,
        by rw [← heff h2]; exact h4⟩ hcond

/-- Witness for C1: on a finalized one-chunk session whose single chunk was
pending, a successful transcription task invokes finalization. -/
theorem c1_finalization_trigger_witness :
    (process_transcription_and_summary okServices finalizedPendingMeeting
      [⟨1, "p", none⟩] 1 "p").finalize_invoked = true :=
  (c1_finalization_trigger okServices finalizedPendingMeeting [⟨1, "p", none⟩]
    1 "p" ⟨1, "p", none⟩ rfl (fun _ => by decide)).mpr (by decide)

/-- C2 counterexample: the claim stores one "too short to summarize" sentinel
for both an empty and a below-minimum transcript, but on an empty transcript
the code stores the distinct empty-transcript error sentinel, not the
too-brief sentinel it stores for a short non-empty transcript. -/
theorem c2_counterexample :
    (finalize_meeting_processing okServices sampleMeeting []).summary_markdown
        = some emptyTranscriptSentinel ∧
    (finalize_meeting_processing okServices sampleMeeting
        [⟨1, "p", some "hello world"⟩]).summary_markdown
      = some tooBriefSentinel ∧
    emptyTranscriptSentinel ≠ tooBriefSentinel := by
  refine ⟨rfl, rfl, by decide⟩

/-- C2 (amended): the finalization routine always terminates with
complete = true and a non-null summary; an empty rebuilt transcript stores the
empty-transcript error sentinel, a non-empty transcript of fewer than 25 words
stores the too-brief sentinel, and an exception from the summarization
service stores the failed-summary sentinel. -/
theorem c2_finalization_always_terminates (svc : Services) (mtg : Meeting)
    (chunks : List MeetingChunk) :
    (finalize_meeting_processing svc mtg chunks).done = true ∧
    (finalize_meeting_processing svc mtg chunks).summary_markdown ≠ none ∧
    ((rebuild_full_transcript chunks).1 = "" →
      (finalize_meeting_processing svc mtg chunks).summary_markdown =
        some emptyTranscriptSentinel) ∧
    ((rebuild_full_transcript chunks).1 ≠ "" →
      (pyWords (pyStrip (rebuild_full_transcript chunks).1)).length < 25 →
      (finalize_meeting_processing svc mtg chunks).summary_markdown =
        some tooBriefSentinel) ∧
    (∀ e : String, (rebuild_full_transcript chunks).1 ≠ "" →
      ¬(pyWords (pyStrip (rebuild_full_transcript chunks).1)).length < 25 →
      svc.summarize (rebuild_full_transcript chunks).1 = Except.error e →
      (finalize_meeting_processing svc mtg chunks).summary_markdown =
        some summaryFailedSentinel) := by
  obtain ⟨hdone, -, -, -, hsum⟩ := finalize_fields svc mtg chunks
  refine ⟨hdone, hsum, ?_, ?_, ?_⟩
  · exact finalize_summary_of_empty svc mtg chunks
  · intro hne hlt
    rw [finalize_summary_of_nonempty svc mtg chunks hne]
    rw [summarise_of_brief svc _ _ _ _ _ (Or.inr hlt)]
  · intro e hne hlt hsvc
    rw [finalize_summary_of_nonempty svc mtg chunks hne]
    rw [summarise_of_error svc _ _ _ _ _ e hne hlt hsvc]

/-- Witness for C2: a failing summarization service on a 25-word transcript
still terminates finalization with complete = true and the failed-summary
sentinel. -/
theorem c2_finalization_always_terminates_witness :
    (finalize_meeting_processing failingServices sampleMeeting
      [⟨1, "p", some longText⟩]).done = true ∧
    (finalize_meeting_processing failingServices sampleMeeting
      [⟨1, "p", some longText⟩]).summary_markdown = some summaryFailedSentinel :=
  ⟨(c2_finalization_always_terminates failingServices sampleMeeting
      [⟨1, "p", some longText⟩]).1,
   (c2_finalization_always_terminates failingServices sampleMeeting
      [⟨1, "p", some longText⟩]).2.2.2.2 "down" (by decide) (by decide) rfl⟩

/-- C3 counterexample: a chunk transcribed as the empty string (non-null) is
dropped by the code rather than joined, so the rebuilt transcript differs from
the claim's join of all non-null texts. -/
theorem c3_counterexample :
    (rebuild_full_transcript
      [⟨1, "p1", some "a"⟩, ⟨2, "p2", some ""⟩, ⟨3, "p3", some "b"⟩]).1
        = "a b" ∧
    c3_claim_transcript
      [⟨1, "p1", some "a"⟩, ⟨2, "p2", some ""⟩, ⟨3, "p3", some "b"⟩]
        = "a  b" ∧
    ("a b" : String) ≠ "a  b" := by
  refine ⟨rfl, rfl, by decide⟩

/-- C3 (amended): the rebuilt transcript equals the non-null, non-empty chunk
texts ordered by index ascending, joined with single spaces and stripped (no
index is excluded), and it is recomputed from the persisted rows alone: any
re-ordering of the rows of a session (indices are unique per session) yields
the same transcript. -/
theorem c3_transcript_rebuild (l1 l2 : List MeetingChunk) (hperm : l1.Perm l2)
    (hnd : (l1.map MeetingChunk.chunk_index).Nodup) :
    (rebuild_full_transcript l1).1 = c3_amended_transcript l1 ∧
    rebuild_full_transcript l1 = rebuild_full_transcript l2 := by
  refine ⟨rfl, ?_⟩
  unfold rebuild_full_transcript
  rw [sortChunks_eq_of_perm l1 l2 hperm hnd]

/-- Witness for C3: two rows arriving in either order rebuild to the same
transcript. -/
theorem c3_transcript_rebuild_witness :
    rebuild_full_transcript [⟨1, "p1", some "a"⟩, ⟨2, "p2", some "b"⟩] =
      rebuild_full_transcript [⟨2, "p2", some "b"⟩, ⟨1, "p1", some "a"⟩] :=
  (c3_transcript_rebuild [⟨1, "p1", some "a"⟩, ⟨2, "p2", some "b"⟩]
    [⟨2, "p2", some "b"⟩, ⟨1, "p1", some "a"⟩] (List.Perm.swap _ _ _)
    (by decide)).2

/-- C4 counterexample: with chunks 1, 2, 4 transcribed as "a", "b", "d" and
chunk 3 pending on a session with four received chunks, the status endpoint
answers "[...] a b [...]" (placeholders for every missing index from 0), not
the contiguous prefix "a b" the claim requires. -/
theorem c4_counterexample :
    (get_meeting 1000 liveMeeting liveChunks).transcript_shown =
      some "[...] a b [...]" ∧
    ("[...] a b [...]" : String) ≠ "a b" := by
  refine ⟨rfl, by decide⟩

/-- C4 (amended): for a session that is not complete (and not past the
inactivity window), the status endpoint's transcript walks indices 0 up to
the bar (expected_chunks when finalized with a set expectation, else
received_chunks), emitting each present row's non-null text and the
placeholder "[...]" otherwise, joined with single spaces and stripped — a
gap-padded window, not a contiguous prefix. -/
theorem build_live_congr (m1 m2 : Meeting) (chunks : List MeetingChunk)
    (h1 : m1.final_received = m2.final_received)
    (h2 : m1.expected_chunks = m2.expected_chunks)
    (h3 : m1.received_chunks = m2.received_chunks) :
    build_live_transcript m1 chunks = build_live_transcript m2 chunks := by
  unfold build_live_transcript
  rw [h1, h2, h3]

theorem build_live_eq_amended (mtg : Meeting) (chunks : List MeetingChunk) :
    build_live_transcript mtg chunks = c4_amended_live mtg chunks := by
  simp only [build_live_transcript, c4_amended_live]
  congr 1
  congr 1
  apply List.map_congr_left
  intro i _
  cases findChunk chunks i with
  | none => rfl
  | some c =>
    cases htext : c.text with
    | none => simp [htext]
    | some t => simp [htext]

theorem c4_live_transcript (now : Nat) (mtg : Meeting)
    (chunks : List MeetingChunk) (hdone : mtg.done = false)
    (htime : ¬ INACTIVITY_TIMEOUT_SECONDS < now - mtg.last_activity) :
    (get_meeting now mtg chunks).transcript_shown =
      some (c4_amended_live mtg chunks) := by
  have hc : (!mtg.final_received && mtg.expected_chunks.isNone
      && decide (INACTIVITY_TIMEOUT_SECONDS < now - mtg.last_activity))
      = false := by
    simp [htime]
  simp only [get_meeting, hc, Bool.false_eq_true, if_false]
  split
  · simp only [hdone, Bool.false_eq_true, if_false]
    exact congrArg some ((build_live_congr _ mtg chunks rfl rfl rfl).trans
      (build_live_eq_amended mtg chunks))
  · simp only [hdone, Bool.false_eq_true, if_false]
    exact congrArg some (build_live_eq_amended mtg chunks)

/-- Witness for C4: the amended live-transcript rule evaluated on the
counterexample session. -/
theorem c4_live_transcript_witness :
    (get_meeting 1000 liveMeeting liveChunks).transcript_shown =
      some (c4_amended_live liveMeeting liveChunks) :=
  c4_live_transcript 1000 liveMeeting liveChunks rfl (by decide)

/-- C5 counterexample: when the transcription service raises, the task does
not leave the chunk's text null — the catch-all handler returns "" and the
task persists it, so the chunk is no longer pending and the janitor's
null-text query no longer selects it. -/
theorem c5_counterexample :
    (process_transcription_and_summary failingServices
      { sampleMeeting with received_chunks := 1 } [⟨1, "p", none⟩] 1
      "p").chunks = [⟨1, "p", some ""⟩] ∧
    (([⟨1, "p", some ""⟩] : List MeetingChunk).filter
      (fun c => c.text.isNone)).isEmpty = true ∧
    (some "" : Option String) ≠ none := by
  refine ⟨rfl, rfl, by decide⟩

/-- C5 (amended): when the transcription service raises for a chunk, the
helper swallows the exception and returns the empty string, which the task
persists: the chunk's text becomes "" (processed-with-no-speech, non-null),
the task does not re-raise for the runner's retry policy, and the chunk is
not eligible for the janitor's null-text re-enqueue. -/
theorem c5_failed_transcription_not_pending (svc : Services) (mtg : Meeting)
    (chunks : List MeetingChunk) (idx : Nat) (p : String) (c : MeetingChunk)
    (e : String) (hsvc : svc.transcribe p = Except.error e)
    (hfound : findChunk chunks idx = some c) :
    findChunk (process_transcription_and_summary svc mtg chunks idx p).chunks
        idx = some { c with text := some "" } ∧
    ∀ d ∈ (process_transcription_and_summary svc mtg chunks idx p).chunks.filter
        (fun c => c.text.isNone), d.chunk_index ≠ idx := by
  have htext : transcribe_webm_chunk_in_worker svc p = "" := by
    unfold transcribe_webm_chunk_in_worker
    rw [hsvc]
  have hchunks : (process_transcription_and_summary svc mtg chunks idx p).chunks
      = setChunkText chunks idx "" := by
    simp only [process_transcription_and_summary, hfound, htext]
    split <;> rfl
  rw [hchunks]
  constructor
  · rw [findChunk_setChunkText_self, hfound]
    rfl
  · intro d hd
    have hmem : d ∈ setChunkText chunks idx "" := (List.mem_filter.mp hd).1
    have hnone : d.text.isNone = true := by
      simpa using (List.mem_filter.mp hd).2
    intro hidxeq
    have := mem_setChunkText_eq_idx chunks idx "" d hmem hidxeq
    rw [this] at hnone
    simp at hnone

/-- Witness for C5: a failing service on a pending chunk leaves that chunk
with text "" rather than null. -/
theorem c5_failed_transcription_not_pending_witness :
    findChunk (process_transcription_and_summary failingServices sampleMeeting
      [⟨2, "q", none⟩] 2 "q").chunks 2 = some ⟨2, "q", some ""⟩ :=
  (c5_failed_transcription_not_pending failingServices sampleMeeting
    [⟨2, "q", none⟩] 2 "q" ⟨2, "q", none⟩ "down" rfl rfl).1

/-- C6 counterexample: a complete session with summary_task_queued = true
that receives one more real chunk keeps summary_task_queued = true; the
ingestion endpoint resets only done and summary_markdown, not the enqueue
guard the claim says is reset. -/
theorem c6_counterexample :
    (upload_chunk 2000 "d" doneQueuedMeeting [⟨1, "p", some "a"⟩] 2 2048
      false).mtg.done = false ∧
    (upload_chunk 2000 "d" doneQueuedMeeting [⟨1, "p", some "a"⟩] 2 2048
      false).mtg.summary_markdown = none ∧
    (upload_chunk 2000 "d" doneQueuedMeeting [⟨1, "p", some "a"⟩] 2 2048
      false).mtg.summary_task_queued = true := by
  refine ⟨rfl, rfl, rfl⟩

/-- C6 (amended): uploading one more real chunk to a complete session resets
complete to false and summary to null and counts the chunk, but leaves
summary_enqueued (summary_task_queued) unchanged. -/
theorem c6_resume_resets (now : Nat) (dir : String) (mtg : Meeting)
    (chunks : List MeetingChunk) (idx size : Nat) (fin : Bool)
    (hdone : mtg.done = true) (hsize : tiny size = false) :
    (upload_chunk now dir mtg chunks idx size fin).mtg.done = false ∧
    (upload_chunk now dir mtg chunks idx size fin).mtg.summary_markdown
      = none ∧
    (upload_chunk now dir mtg chunks idx size fin).mtg.summary_task_queued
      = mtg.summary_task_queued ∧
    (upload_chunk now dir mtg chunks idx size fin).mtg.received_chunks
      = mtg.received_chunks + 1 ∧
    (upload_chunk now dir mtg chunks idx size fin).task_enqueued = true := by
  simp only [upload_chunk, hsize, Bool.false_eq_true, if_false, hdone, if_true]
  split <;> simp

/-- Witness for C6: the resume upload on the completed, queue-guarded
session. -/
theorem c6_resume_resets_witness :
    (upload_chunk 2000 "d" doneQueuedMeeting [⟨1, "p", some "a"⟩] 3 4096
      false).mtg.done = false ∧
    (upload_chunk 2000 "d" doneQueuedMeeting [⟨1, "p", some "a"⟩] 3 4096
      false).mtg.summary_markdown = none :=
  ⟨(c6_resume_resets 2000 "d" doneQueuedMeeting [⟨1, "p", some "a"⟩] 3 4096
      false rfl rfl).1,
   (c6_resume_resets 2000 "d" doneQueuedMeeting [⟨1, "p", some "a"⟩] 3 4096
      false rfl rfl).2.1⟩

/-- C7 counterexample: an index-0 chunk of 2048 bytes is not treated as
signal-only — the endpoint records it, counts it toward received_chunks and
enqueues a transcription task, although the claim says the header chunk is
always signal-only regardless of size. -/
theorem c7_counterexample :
    (upload_chunk 100 "d" sampleMeeting [] 0 2048 false).skipped = false ∧
    (upload_chunk 100 "d" sampleMeeting [] 0 2048 false).task_enqueued
      = true ∧
    (upload_chunk 100 "d" sampleMeeting [] 0 2048 false).mtg.received_chunks
      = 1 ∧
    (upload_chunk 100 "d" sampleMeeting [] 0 2048 false).chunks =
      [⟨0, chunk_path "d" 0, none⟩] := by
  refine ⟨rfl, rfl, rfl, rfl⟩

/-- C7 (amended): an upload is signal-only (skipped, uncounted, not enqueued)
exactly when its size is below the minimum-bytes threshold; the chunk index,
including index 0, plays no role in the classification, so a large header
chunk is counted and enqueued like any real chunk. -/
theorem c7_signal_only_iff_tiny (now : Nat) (dir : String) (mtg : Meeting)
    (chunks : List MeetingChunk) (idx size : Nat) (fin : Bool) :
    ((upload_chunk now dir mtg chunks idx size fin).skipped = true
      ↔ tiny size = true) ∧
    (tiny size = true →
      (upload_chunk now dir mtg chunks idx size fin).chunks = chunks ∧
      (upload_chunk now dir mtg chunks idx size fin).mtg.received_chunks
        = mtg.received_chunks ∧
      (upload_chunk now dir mtg chunks idx size fin).task_enqueued = false) ∧
    (tiny size = false →
      (upload_chunk now dir mtg chunks idx size fin).mtg.received_chunks
        = mtg.received_chunks + 1 ∧
      (upload_chunk now dir mtg chunks idx size fin).task_enqueued = true) := by
  by_cases hs : tiny size = true
  · have e1 : (upload_chunk now dir mtg chunks idx size fin).skipped = true := by
      simp [upload_chunk, hs]
    have e2 : (upload_chunk now dir mtg chunks idx size fin).chunks = chunks := by
      simp [upload_chunk, hs]
    have e3 : (upload_chunk now dir mtg chunks idx size fin).mtg.received_chunks
        = mtg.received_chunks := by
      simp only [upload_chunk, hs, if_true]
      split <;> rfl
    have e4 : (upload_chunk now dir mtg chunks idx size fin).task_enqueued
        = false := by
      simp [upload_chunk, hs]
    exact ⟨⟨fun _ => hs, fun _ => e1⟩, fun _ => ⟨e2, e3, e4⟩,
      fun habs => absurd hs (by simp [habs])⟩
  · have hs2 : tiny size = false := by
      revert hs
      cases tiny size <;> simp
    have e1 : (upload_chunk now dir mtg chunks idx size fin).skipped = false := by
      simp [upload_chunk, hs2]
    have e3 : (upload_chunk now dir mtg chunks idx size fin).mtg.received_chunks
        = mtg.received_chunks + 1 := by
      simp only [upload_chunk, hs2, Bool.false_eq_true, if_false]
      split <;> split <;> rfl
    have e4 : (upload_chunk now dir mtg chunks idx size fin).task_enqueued
        = true := by
      simp [upload_chunk, hs2]
    exact ⟨⟨fun hab => absurd (e1.symm.trans hab) (by simp),
        fun hab => absurd hab hs⟩,
      fun hab => absurd hab hs, fun _ => ⟨e3, e4⟩⟩

/-- Witness for C7: a 50-byte upload is signal-only, a 2048-byte upload is
counted and enqueued. -/
theorem c7_signal_only_iff_tiny_witness :
    (upload_chunk 100 "d" sampleMeeting [] 5 50 true).skipped = true ∧
    (upload_chunk 100 "d" sampleMeeting [] 5 2048 true).task_enqueued = true :=
  ⟨(c7_signal_only_iff_tiny 100 "d" sampleMeeting [] 5 50 true).1.mpr rfl,
   ((c7_signal_only_iff_tiny 100 "d" sampleMeeting [] 5 2048 true).2.2 rfl).2⟩

/-- C8 counterexample: the claimed invariant "complete implies the transcript
holds the final assembled value" is not preserved by the transcription task.
A complete session whose stored transcript is the assembly "a" of its one
expected chunk still has a second, pending chunk row; running the task on
that row (reachable, e.g. from upload 1 final, upload 2, task 1, task 2)
updates its text, after which the stored transcript no longer equals the
re-assembled value. -/
theorem c8_counterexample :
    c8_claim_invariant doneStaleMeeting
      [⟨1, "p1", some "a"⟩, ⟨2, "p2", none⟩] ∧
    ¬ c8_claim_invariant
        (process_transcription_and_summary okServices doneStaleMeeting
          [⟨1, "p1", some "a"⟩, ⟨2, "p2", none⟩] 2 "p2").mtg
        (process_transcription_and_summary okServices doneStaleMeeting
          [⟨1, "p1", some "a"⟩, ⟨2, "p2", none⟩] 2 "p2").chunks := by
  decide

/-- C8 (amended): every pipeline operation — chunk ingestion, the
transcription task, the finalization routine, the status poll, and the
janitor sweep — preserves the session invariants that a complete session has
a non-null summary (success value or terminal sentinel) and a non-null stored
transcript, and that a finalized session has expected_count set.  (The
stronger claim that the stored transcript always equals the re-assembled
chunk texts fails; see the counterexample.) -/
theorem c8_operations_preserve_invariants (svc : Services) (now : Nat)
    (dir p : String) (pathExists : String → Bool) (mtg : Meeting)
    (chunks : List MeetingChunk) (idx size : Nat) (fin : Bool)
    (h : session_invariant mtg) :
    session_invariant (upload_chunk now dir mtg chunks idx size fin).mtg ∧
    session_invariant
      (process_transcription_and_summary svc mtg chunks idx p).mtg ∧
    session_invariant (finalize_meeting_processing svc mtg chunks) ∧
    session_invariant (get_meeting now mtg chunks).mtg ∧
    session_invariant (cleanup_stuck_meeting svc now pathExists mtg chunks).mtg :=
  ⟨upload_preserves_invariant now dir mtg chunks idx size fin h,
   process_preserves_invariant svc mtg chunks idx p h,
   finalize_preserves_invariant svc mtg chunks h,
   get_meeting_preserves_invariant now mtg chunks h,
   cleanup_preserves_invariant svc now pathExists mtg chunks h⟩

/-- Witness for C8: the invariants hold after ingesting a final chunk into a
fresh session and after finalizing it. -/
theorem c8_operations_preserve_invariants_witness :
    session_invariant (upload_chunk 10 "d" sampleMeeting [] 1 2048 true).mtg ∧
    session_invariant (finalize_meeting_processing okServices sampleMeeting []) :=
  ⟨(c8_operations_preserve_invariants okServices 10 "d" "p" (fun _ => true)
      sampleMeeting [] 1 2048 true (by decide)).1,
   (c8_operations_preserve_invariants okServices 10 "d" "p" (fun _ => true)
      sampleMeeting [] 1 2048 true (by decide)).2.2.1⟩

/-- C9 counterexample: a session created with a client-supplied
expected_count (POST /api/meetings passes MeetingCreate.expected_chunks into
the new row while finalized is still false) and inactive past both windows
refutes the claim: the status poll does not finalize it (its auto-finalize
guard also requires expected_chunks to be null), and the janitor sweep
finalizes it but keeps expected_count at 5 instead of pinning it to the
received_count 0. -/
theorem c9_counterexample :
    preExpectedMeeting.final_received = false ∧
    INACTIVITY_TIMEOUT_SECONDS < 1000 - preExpectedMeeting.last_activity ∧
    preExpectedMeeting.last_activity + JANITOR_INACTIVITY_SECONDS < 1000 ∧
    (get_meeting 1000 preExpectedMeeting []).mtg.final_received = false ∧
    (cleanup_stuck_meeting okServices 1000 (fun _ => true) preExpectedMeeting
      []).mtg.expected_chunks = some 5 ∧
    (some 5 : Option Nat) ≠ some preExpectedMeeting.received_chunks := by
  decide

/-- C9 (amended): for a session with finalized = false that is not complete,
the status endpoint auto-finalizes on inactivity (finalized = true,
expected_count = received_count) only when expected_count is also null, and
leaves a session with a pre-set expected_count untouched; the janitor sweep
finalizes any such session inactive past its window, pinning expected_count
to received_count only when it was null and preserving a pre-set value
otherwise. -/
theorem c9_recovery_rules (svc : Services) (now : Nat)
    (pathExists : String → Bool) (mtg : Meeting) (chunks : List MeetingChunk)
    (hfin : mtg.final_received = false) (hdone : mtg.done = false) :
    (mtg.expected_chunks = none →
      INACTIVITY_TIMEOUT_SECONDS < now - mtg.last_activity →
      (get_meeting now mtg chunks).mtg.final_received = true ∧
      (get_meeting now mtg chunks).mtg.expected_chunks =
        some mtg.received_chunks) ∧
    (mtg.expected_chunks ≠ none →
      (get_meeting now mtg chunks).mtg.final_received = false ∧
      (get_meeting now mtg chunks).mtg.expected_chunks =
        mtg.expected_chunks) ∧
    (mtg.last_activity + JANITOR_INACTIVITY_SECONDS < now →
      (cleanup_stuck_meeting svc now pathExists mtg chunks).mtg.final_received
        = true ∧
      (cleanup_stuck_meeting svc now pathExists mtg chunks).mtg.expected_chunks
        = some (mtg.expected_chunks.getD mtg.received_chunks)) := by
  refine ⟨?_, ?_, ?_⟩
  · intro hexp ht
    have hc : (!mtg.final_received && mtg.expected_chunks.isNone
        && decide (INACTIVITY_TIMEOUT_SECONDS < now - mtg.last_activity))
        = true := by
      simp [hfin, hexp, ht]
    simp only [get_meeting, hc, if_true]
    refine ⟨?_, ?_⟩ <;> (split <;> rfl)
  · intro hne
    have hc : (!mtg.final_received && mtg.expected_chunks.isNone
        && decide (INACTIVITY_TIMEOUT_SECONDS < now - mtg.last_activity))
        = false := by
      cases hx : mtg.expected_chunks with
      | none => exact absurd hx hne
      | some e => simp [hx]
    simp only [get_meeting, hc, Bool.false_eq_true, if_false]
    constructor
    · split <;> exact hfin
    · split <;> rfl
  · intro ht
    have hp1 : janitor_phase1 now mtg =
        { mtg with final_received := true,
                   expected_chunks :=
                     some (mtg.expected_chunks.getD mtg.received_chunks) } := by
      unfold janitor_phase1
      rw [if_pos]
      simp [hdone, hfin, ht]
    simp only [cleanup_stuck_meeting, hp1]
    split
    · split
      · obtain ⟨-, hfin2, hexp2, -, -⟩ := finalize_fields svc _ chunks
        refine ⟨?_, ?_⟩
        · rw [hfin2]
        · rw [hexp2]
      · exact ⟨rfl, rfl⟩
    · exact ⟨rfl, rfl⟩

/-- Witness for C9: the status poll and the janitor finalize and pin the
abandoned session with no pre-set expectation, while the poll leaves the
session created with one untouched. -/
theorem c9_recovery_rules_witness :
    (get_meeting 1000 inactiveMeeting []).mtg.final_received = true ∧
    (get_meeting 1000 inactiveMeeting []).mtg.expected_chunks = some 3 ∧
    (get_meeting 1000 preExpectedMeeting []).mtg.final_received = false ∧
    (cleanup_stuck_meeting okServices 1000 (fun _ => true) inactiveMeeting
      [⟨1, "p", none⟩]).mtg.expected_chunks = some 3 :=
  have h1 := c9_recovery_rules okServices 1000 (fun _ => true) inactiveMeeting
    [⟨1, "p", none⟩] rfl rfl
  have h2 := c9_recovery_rules okServices 1000 (fun _ => true)
    preExpectedMeeting [] rfl rfl
  have h3 := c9_recovery_rules okServices 1000 (fun _ => true) inactiveMeeting
    [] rfl rfl
  ⟨(h3.1 rfl (by decide)).1, (h3.1 rfl (by decide)).2,
   (h2.2.1 (by decide)).1, (h1.2.2 (by decide)).2⟩

/-- C10: re-upload and re-transcription are idempotent overwrites: uploading
an existing chunk index again overwrites the row's storage path and resets
its text to null, and running the transcription task twice for the same chunk
with the same audio leaves exactly the chunk rows the first run left (in
particular the same final text). -/
theorem c10_idempotent_overwrites (now : Nat) (dir p : String)
    (svc : Services) (mtg : Meeting) (chunks : List MeetingChunk)
    (idx size : Nat) (fin : Bool) (c : MeetingChunk)
    (hfound : findChunk chunks idx = some c) (hsize : tiny size = false) :
    findChunk (upload_chunk now dir mtg chunks idx size fin).chunks idx =
      some ⟨idx, chunk_path dir idx, none⟩ ∧
    (process_transcription_and_summary svc
        (process_transcription_and_summary svc mtg chunks idx p).mtg
        (process_transcription_and_summary svc mtg chunks idx p).chunks idx
        p).chunks =
      (process_transcription_and_summary svc mtg chunks idx p).chunks := by
  constructor
  · have hup : (upload_chunk now dir mtg chunks idx size fin).chunks =
        upsertChunk chunks idx (chunk_path dir idx) := by
      simp only [upload_chunk, hsize, Bool.false_eq_true, if_false]
    rw [hup]
    exact findChunk_upsertChunk chunks idx _ c hfound
  · have h1 : (process_transcription_and_summary svc mtg chunks idx p).chunks =
        setChunkText chunks idx (transcribe_webm_chunk_in_worker svc p) := by
      simp only [process_transcription_and_summary, hfound]
      split <;> rfl
    rw [h1]
    have h2 : findChunk (setChunkText chunks idx
        (transcribe_webm_chunk_in_worker svc p)) idx =
        some { c with text := some (transcribe_webm_chunk_in_worker svc p) } := by
      rw [findChunk_setChunkText_self, hfound]
      rfl
    have key : ∀ m : Meeting,
        (process_transcription_and_summary svc m
          (setChunkText chunks idx (transcribe_webm_chunk_in_worker svc p)) idx
          p).chunks =
        setChunkText chunks idx (transcribe_webm_chunk_in_worker svc p) := by
      intro m
      simp only [process_transcription_and_summary, h2]
      split
      · exact setChunkText_setChunkText chunks idx _
      · exact setChunkText_setChunkText chunks idx _
    exact key _

/-- Witness for C10: re-uploading index 1 resets its row, and running the
task twice on a one-chunk session changes nothing on the second run. -/
theorem c10_idempotent_overwrites_witness :
    findChunk (upload_chunk 50 "d" sampleMeeting [⟨1, "old", some "x"⟩] 1 2048
      false).chunks 1 = some ⟨1, chunk_path "d" 1, none⟩ ∧
    (process_transcription_and_summary okServices
        (process_transcription_and_summary okServices finalizedPendingMeeting
          [⟨1, "old", some "x"⟩] 1 "p").mtg
        (process_transcription_and_summary okServices finalizedPendingMeeting
          [⟨1, "old", some "x"⟩] 1 "p").chunks 1 "p").chunks =
      (process_transcription_and_summary okServices finalizedPendingMeeting
        [⟨1, "old", some "x"⟩] 1 "p").chunks :=
  ⟨(c10_idempotent_overwrites 50 "d" "p" okServices sampleMeeting
      [⟨1, "old", some "x"⟩] 1 2048 false ⟨1, "old", some "x"⟩ rfl rfl).1,
   (c10_idempotent_overwrites 50 "d" "p" okServices finalizedPendingMeeting
      [⟨1, "old", some "x"⟩] 1 2048 false ⟨1, "old", some "x"⟩ rfl rfl).2⟩

end MeetScribe
